import Mathlib

/-!
Verification development for the Marisk beta-site server (`server.js`).

The server is written in JavaScript; we shallowly embed the parts of it
that carry state or logic: the session registry (`isAuthenticated`), the
static-file path guard (`serveStatic`), the locale loader (`getLocale`),
the chat answer matcher, the add-FAQ admin handler, the random FAQ
suggestions sampler, and the image-ingestion helper (`saveImage`).

JavaScript strings are modelled as `List Char` (`Str`); the ASCII
fragment of `toLowerCase`, `trim` and `split` is embedded directly.
Objects used as string-keyed maps (`sessions`, `localesCache`, parsed
locale JSON) are modelled as association lists with unique keys; JS
property update keeps the entry position, property creation appends,
`delete` removes the entry, matching `aset`/`aremove` below.
File-system effects are made explicit: reads are passed in as functions
or as an abstract disk state, writes are returned as part of the result.
`JSON.stringify`/`JSON.parse` round-tripping on plain data is treated as
a platform property: the parsed content of `data/faqs.json` is modelled
as the `List FAQ` value that was serialized into it.
-/

namespace Marisk

/-- Strings of the embedded JavaScript, as lists of characters. -/
abbrev Str := List Char

/-- ASCII whitespace recognised by `String.prototype.trim` (the inputs
considered here are ASCII). -/
def isWs (c : Char) : Bool :=
  c = ' ' || c = '\t' || c = '\n' || c = '\r'

/-- Model of `String.prototype.trim`: drop whitespace from both ends. -/
def trimStr (s : Str) : Str :=
  ((s.dropWhile isWs).reverse.dropWhile isWs).reverse

/-- Model of `String.prototype.toLowerCase` on ASCII strings. -/
def toLowerStr (s : Str) : Str := s.map Char.toLower

/-- Model of `a.includes(b)`: `b` occurs as a contiguous substring of `a`. -/
def containsSub (hay needle : Str) : Bool :=
  hay.tails.any (fun t => List.isPrefixOf needle t)

/-- Model of `s.startsWith(pre)`. -/
def startsWithStr (s pre : Str) : Bool := List.isPrefixOf pre s

/-- Model of `s.split(sep)` for a one-character separator: empty segments
are kept, exactly as in JavaScript. -/
def splitList (sep : Char) : Str → List Str
  | [] => [[]]
  | c :: rest =>
    if c = sep then [] :: splitList sep rest
    else
      match splitList sep rest with
      | [] => [[c]]
      | h :: t => (c :: h) :: t

/-- Model of the JavaScript idiom `(x || d)` for an optional string `x`:
a missing or empty string is replaced by the default. -/
def jsOr (o : Option Str) (d : Str) : Str :=
  match o with
  | some s => if s = [] then d else s
  | none => d

/-- Truthiness of an optional string field (`undefined` and `""` are falsy). -/
def truthy (o : Option Str) : Bool :=
  match o with
  | some s => !s.isEmpty
  | none => false

/-- Lookup in a string-keyed object modelled as an association list. -/
def alookup {α : Type} (m : List (Str × α)) (k : Str) : Option α :=
  match m with
  | [] => none
  | (k1, v) :: rest => if k1 = k then some v else alookup rest k

/-- Property write `m[k] = v`: replace in place when the key exists,
append otherwise. -/
def aset {α : Type} (m : List (Str × α)) (k : Str) (v : α) : List (Str × α) :=
  match m with
  | [] => [(k, v)]
  | (k1, v1) :: rest => if k1 = k then (k, v) :: rest else (k1, v1) :: aset rest k v

/-- Property deletion `delete m[k]`. -/
def aremove {α : Type} (m : List (Str × α)) (k : Str) : List (Str × α) :=
  m.filter (fun p => !(p.1 = k : Bool))

/-- A stored FAQ entry `{question, answer}`. -/
structure FAQ where
  question : Str
  answer : Str
deriving DecidableEq

/-- Twenty-four hours in milliseconds, the session lifetime
(`24 * 60 * 60 * 1000` in `isAuthenticated`). -/
def dayMs : Int := 24 * 60 * 60 * 1000

/-- Embedding of `isAuthenticated(req)`: given the session registry, the
`Authorization` header (if present) and the current clock value, return
whether the request is authenticated together with the updated registry
(timestamp refresh on success, entry deletion on expiry). -/
def isAuthenticated (sessions : List (Str × Int)) (auth : Option Str)
    (now : Int) : Bool × List (Str × Int) :=
  match auth with
  | none => (false, sessions)
  | some a =>
    match splitList ' ' a with
    | [p0, token] =>
      if p0 = "Bearer".data then
        match alookup sessions token with
        | none => (false, sessions)
        | some ts =>
          if now - ts > dayMs then (false, aremove sessions token)
          else (true, aset sessions token now)
      else (false, sessions)
    | _ => (false, sessions)

/-- Normalisation of an absolute path's segment list, as performed by
`path.join` / `path.resolve` on an absolute path: empty and `.` segments
are dropped, `..` pops the previous segment (popping above the root is
a no-op, as for an absolute path in Node). -/
def normAux (acc : List Str) : List Str → List Str
  | [] => acc
  | s :: rest =>
    if s = [] || s = ".".data then normAux acc rest
    else if s = "..".data then normAux acc.dropLast rest
    else normAux (acc ++ [s]) rest

/-- Resolved segment list of `path.resolve(path.join(base, pathname))`
where `base` is an already-normalised absolute directory given by its
segments. -/
def resolveJoin (base : List Str) (pathname : Str) : List Str :=
  normAux [] (base ++ splitList '/' pathname)

/-- Render an absolute path from its segments (`/a/b/c`; `/` for the root). -/
def renderAbs (segs : List Str) : Str :=
  '/' :: List.intercalate ['/'] segs

/-- Embedding of the path-traversal guard in `serveStatic`: the request
pathname is joined onto the public directory, resolved, and the resolved
path string is required to start with the public-directory string
(`resolved.startsWith(publicDir)`); `true` means the guard lets the
lookup proceed. -/
def serveStaticGuard (publicSegs : List Str) (pathname : Str) : Bool :=
  startsWithStr (renderAbs (resolveJoin publicSegs pathname)) (renderAbs publicSegs)

/-- Outcome of `fs.readFile` + `JSON.parse` for one locale document:
the read callback receives an error, or the data fails to parse, or it
parses to a key-to-string mapping. -/
inductive LocaleRead where
  | readErr : LocaleRead
  | parseErr : LocaleRead
  | ok : List (Str × Str) → LocaleRead
deriving DecidableEq

/-- A parsed locale document: translation key to translated string. -/
abbrev Locale := List (Str × Str)

/-- The `localesCache` object: language code to parsed locale. -/
abbrev Cache := List (Str × Locale)

/-- One pass of the body of `getLocale(lang)`: cached value if present;
otherwise read the language's document — on read error produce
`fallback`, on parse error resolve an empty mapping without caching, on
success cache and resolve the parsed mapping. -/
def getLocaleBase (cache : Cache) (fsRead : Str → LocaleRead) (lang : Str)
    (fallback : Locale × Cache) : Locale × Cache :=
  match alookup cache lang with
  | some m => (m, cache)
  | none =>
    match fsRead lang with
    | .ok m => (m, aset cache lang m)
    | .parseErr => ([], cache)
    | .readErr => fallback

/-- Embedding of `getLocale(lang)`. The source recurses into
`getLocale('en')` on a read error when `lang !== 'en'`; since that inner
call can itself only fall back to the empty mapping, the recursion is
unrolled here: the fallback of the outer pass is a full inner pass for
`'en'` whose own read-error fallback is the empty mapping. The result
pairs the resolved mapping with the updated cache. -/
def getLocale (cache : Cache) (fsRead : Str → LocaleRead) (lang : Str) :
    Locale × Cache :=
  getLocaleBase cache fsRead lang
    (if lang = "en".data then ([], cache)
     else getLocaleBase cache fsRead "en".data ([], cache))

/-- Exact-match predicate of the chat handler:
`faq.question.toLowerCase() === lower`. -/
def exactPred (lower : Str) (faq : FAQ) : Bool :=
  toLowerStr faq.question == lower

/-- Substring-match predicate of the chat handler:
`lower.includes(faq.question.toLowerCase()) || faq.question.toLowerCase().includes(lower)`. -/
def substrPred (lower : Str) (faq : FAQ) : Bool :=
  containsSub lower (toLowerStr faq.question)
    || containsSub (toLowerStr faq.question) lower

/-- FAQ matching of `POST /api/chat` for a non-empty trimmed question:
first `faqs.find` with the exact predicate, then `faqs.find` with the
substring predicate, else no answer. -/
def findAnswerList (faqs : List FAQ) (question : Str) : Option Str :=
  let lower := toLowerStr question
  match faqs.find? (exactPred lower) with
  | some m => some m.answer
  | none =>
    match faqs.find? (substrPred lower) with
    | some p => some p.answer
    | none => none

/-- Matching step of the chat handler including its emptiness guard
(`if (question) { ... }`): an empty question yields no FAQ answer. -/
def matchedAnswer (faqs : List FAQ) (question : Str) : Option Str :=
  if question.isEmpty then none else findAnswerList faqs question

/-- The fixed default chat reply of the handler (the apostrophe is
embedded by code point). -/
def defaultNoAnswer : Str :=
  "Sorry, I don".data ++ [Char.ofNat 39] ++ "t know the answer.".data

/-- Embedding of `POST /api/chat`: the body fields are optional strings
(`undefined` for absent or non-string); returns status, answer string and
the updated locale cache. A matched but falsy (empty) answer also falls
through to the locale reply, mirroring `if (!answer)`. -/
def chatHandler (faqs : List FAQ) (cache : Cache) (fsRead : Str → LocaleRead)
    (bq blang : Option Str) : Nat × Str × Cache :=
  let question := trimStr (jsOr bq [])
  let lang := trimStr (jsOr blang "en".data)
  let matched := (matchedAnswer faqs question).getD []
  if matched.isEmpty then
    let lc := getLocale cache fsRead lang
    let answer :=
      match alookup lc.1 "chat_no_answer".data with
      | some s => if s.isEmpty then defaultNoAnswer else s
      | none => defaultNoAnswer
    (200, answer, lc.2)
  else (200, matched, cache)

/-- Result of the add-FAQ admin handler: HTTP status, the `success` flag
of the JSON body, and the updated in-memory list, on-disk document and
session registry. The on-disk document is its parsed content when
readable (`none` = unreadable). -/
structure AddFaqResult where
  status : Nat
  success : Bool
  faqs : List FAQ
  faqsDisk : Option (List FAQ)
  sessions : List (Str × Int)
deriving DecidableEq

/-- Embedding of `POST /api/admin/add-faq`: authentication via
`isAuthenticated` (403 on failure), validation that both body fields are
strings with non-empty trimmed values (400 otherwise), then push of the
trimmed entry and full serialization of the list to `faqs.json`. The
disk write's success is an explicit input `writeOk`; a failed write is
caught and logged, leaving the previous disk content in place, and the
handler still returns 200 `{success:true}`. -/
def addFaqHandler (faqs : List FAQ) (faqsDisk : Option (List FAQ))
    (sessions : List (Str × Int)) (auth : Option Str) (now : Int)
    (bq ba : Option Str) (writeOk : Bool) : AddFaqResult :=
  let r := isAuthenticated sessions auth now
  if !r.1 then ⟨403, false, faqs, faqsDisk, r.2⟩
  else
    match bq, ba with
    | some q, some a =>
      if !(trimStr q).isEmpty && !(trimStr a).isEmpty then
        let newFaqs := faqs ++ [⟨trimStr q, trimStr a⟩]
        ⟨200, true, newFaqs, if writeOk then some newFaqs else faqsDisk, r.2⟩
      else ⟨400, false, faqs, faqsDisk, r.2⟩
    | _, _ => ⟨400, false, faqs, faqsDisk, r.2⟩

/-- Embedding of the `GET /api/faqs-suggestions` sampling loop
(`while (indices.size < count) indices.add(Math.floor(Math.random()*faqs.length))`).
The successive values of `Math.floor(Math.random() * faqs.length)` are
supplied as the `draws` stream (each lies in `[0, faqs.length)` when the
list is non-empty); the JS `Set` is an insertion-ordered duplicate-free
list. `none` means the supplied stream was exhausted before the loop
finished. -/
def sampleLoop (count : Nat) (draws : List Nat) (acc : List Nat) :
    Option (List Nat) :=
  match draws with
  | [] => if count ≤ acc.length then some acc else none
  | d :: rest =>
    if count ≤ acc.length then some acc
    else sampleLoop count rest (if acc.contains d then acc else acc ++ [d])

/-- Embedding of `GET /api/faqs-suggestions`: sample
`Math.min(5, faqs.length)` distinct indices, then map each to its
question (`Array.from(indices).map(i => faqs[i].question)`). -/
def faqsSuggestions (faqs : List FAQ) (draws : List Nat) :
    Option (List Str) :=
  let count := min 5 faqs.length
  (sampleLoop count draws []).map
    (fun idxs => idxs.map (fun i => ((faqs.get? i).map FAQ.question).getD []))

/-- Value of a base64 alphabet character in Node's decoding table, which
also accepts the RFC 4648 URL-safe alphabet (`-` as 62, `_` as 63);
`none` for any other character. -/
def b64Val (c : Char) : Option Nat :=
  if 'A' ≤ c && c ≤ 'Z' then some (c.toNat - 65)
  else if 'a' ≤ c && c ≤ 'z' then some (c.toNat - 97 + 26)
  else if '0' ≤ c && c ≤ '9' then some (c.toNat - 48 + 52)
  else if c = '+' then some 62
  else if c = '/' then some 63
  else if c = '-' then some 62
  else if c = '_' then some 63
  else none

/-- Whether a character belongs to Node's (URL-safe-extended) base64
alphabet. -/
def isB64Char (c : Char) : Bool := (b64Val c).isSome

/-- Decode a stream of 6-bit values into bytes, four values to three
bytes, with a shorter final group contributing its complete bytes only. -/
def b64Chunks : List Nat → List Nat
  | v1 :: v2 :: v3 :: v4 :: rest =>
    (v1 * 4 + v2 / 16) :: ((v2 % 16) * 16 + v3 / 4) :: ((v3 % 4) * 64 + v4)
      :: b64Chunks rest
  | [v1, v2, v3] => [v1 * 4 + v2 / 16, (v2 % 16) * 16 + v3 / 4]
  | [v1, v2] => [v1 * 4 + v2 / 16]
  | [_] => []
  | [] => []

/-- Collect the 6-bit values of a base64 string as Node's decoder does:
characters outside the (URL-safe-extended) alphabet are skipped, and the
first padding character `=` stops decoding, dropping the rest of the
input. -/
def b64Scan : Str → List Nat
  | [] => []
  | c :: rest =>
    if c = '=' then []
    else
      match b64Val c with
      | some v => v :: b64Scan rest
      | none => b64Scan rest

/-- Model of Node's lenient `Buffer.from(s, 'base64')`: the 6-bit values
collected by `b64Scan` (invalid characters skipped, decoding stopped at
the first `=`) are packed into bytes. -/
def base64DecodeLenient (s : Str) : List Nat :=
  b64Chunks (b64Scan s)

/-- Whether a string is matched by the JavaScript regex fragment `(.+)$`
(no `s`/`m` flags): non-empty, and without line terminators
(`\n`, `\r`, U+2028, U+2029). -/
def dotPlusOk (p : Str) : Bool :=
  !p.isEmpty && p.all (fun c =>
    c ≠ '\n' && c ≠ '\r' && c.toNat ≠ 0x2028 && c.toNat ≠ 0x2029)

/-- Embedding of the regex match
`/^data:image\/(png|jpeg);base64,(.+)$/.exec(dataUri)`:
on success, the captured mime subtype (`png` or `jpeg`) and the payload. -/
def parseDataUri (s : Str) : Option (Str × Str) :=
  if startsWithStr s "data:image/png;base64,".data then
    let payload := s.drop 22
    if dotPlusOk payload then some ("png".data, payload) else none
  else if startsWithStr s "data:image/jpeg;base64,".data then
    let payload := s.drop 23
    if dotPlusOk payload then some ("jpeg".data, payload) else none
  else none

/-- Embedding of `saveImage(dataUri, prefix)` from the upload handler:
`null` unless the data-URI pattern matches; otherwise the extension is
the subtype with `jpeg` normalised to `jpg`, the filename is
`{prefix}-{Date.now()}-{8 random hex chars}.{ext}` (timestamp and random
string supplied as inputs), the decoded payload is written to the file,
and the storage-relative path `assets/img/{filename}` is returned
together with the written bytes. -/
def saveImage (dataUri pfx ts rnd : Str) : Option (Str × List Nat) :=
  match parseDataUri dataUri with
  | none => none
  | some (sub, payload) =>
    let ext := if sub = "jpeg".data then "jpg".data else sub
    let filename := pfx ++ "-".data ++ ts ++ "-".data ++ rnd ++ ".".data ++ ext
    some ("assets/img/".data ++ filename, base64DecodeLenient payload)

/-- Status code of `POST /api/admin/upload-image` past the
authentication check: 400 when either image field is missing or falsy
(`if (!before || !after)`), 400 when either `saveImage` returns null,
200 otherwise. -/
def uploadImageStatus (before after : Option Str) (tsB rB tsA rA : Str) :
    Nat :=
  if !(truthy before && truthy after) then 400
  else
    match saveImage (jsOr before []) "before".data tsB rB,
          saveImage (jsOr after []) "after".data tsA rA with
    | some _, some _ => 200
    | _, _ => 400

/-- Concrete file system for the locale theorems: `fr.json` exists but is
malformed JSON, `en.json` parses, every other language is missing. -/
def fsNoFallback : Str → LocaleRead := fun l =>
  if l = "fr".data then .parseErr
  else if l = "en".data then .ok [("chat_no_answer".data, "EN".data)]
  else .readErr

/-- Concrete two-entry FAQ list from the spec's matcher example. -/
def faqsW6 : List FAQ := [⟨"Q1".data, "A1".data⟩, ⟨"hello world".data, "A2".data⟩]

/-- Concrete three-entry FAQ list for the suggestions example. -/
def faqsW9 : List FAQ :=
  [⟨"a".data, "x".data⟩, ⟨"b".data, "y".data⟩, ⟨"c".data, "z".data⟩]

/-- Splitting a string that does not contain the separator yields the
single-segment list. -/
theorem splitList_no_sep {sep : Char} {l : Str} (h : sep ∉ l) :
    splitList sep l = [l] := by
  induction l with
  | nil => rfl
  | cons c rest ih =>
    have hc : ¬ c = sep := by
      rintro rfl
      exact h (List.mem_cons_self c rest)
    have hr : sep ∉ rest := fun hm => h (List.mem_cons_of_mem _ hm)
    simp [splitList, hc, ih hr]

/-- Looking up a key just written returns the written value. -/
theorem alookup_aset {α : Type} (m : List (Str × α)) (k : Str) (v : α) :
    alookup (aset m k v) k = some v := by
  induction m with
  | nil => simp [aset, alookup]
  | cons p rest ih =>
    obtain ⟨k1, v1⟩ := p
    by_cases h : k1 = k
    · simp [aset, alookup, h]
    · simp [aset, alookup, h, ih]

/-- Looking up a key just deleted returns nothing. -/
theorem alookup_aremove {α : Type} (m : List (Str × α)) (k : Str) :
    alookup (aremove m k) k = none := by
  induction m with
  | nil => rfl
  | cons p rest ih =>
    obtain ⟨k1, v1⟩ := p
    by_cases h : k1 = k
    · simpa [aremove, List.filter_cons, h] using ih
    · simpa [aremove, alookup, List.filter_cons, h] using ih

/-- The first element of a list satisfying a predicate, identified by its
index: `find?` returns the element at the first index whose predicate
holds when every earlier element fails it. -/
theorem find?_take_first {α : Type} (p : α → Bool) (l : List α) (i : Nat)
    (h : i < l.length) (hp : p (l.get ⟨i, h⟩) = true)
    (hmin : ∀ x ∈ l.take i, p x = false) :
    l.find? p = some (l.get ⟨i, h⟩) := by
  induction l generalizing i with
  | nil => exact absurd h (by simp)
  | cons a tl ih =>
    cases i with
    | zero =>
      simp only [List.get] at hp
      simp [List.find?, hp]
    | succ n =>
      have ha : p a = false := hmin a (by simp [List.take])
      have hlen : n < tl.length := by simpa using h
      have hp2 : p (tl.get ⟨n, hlen⟩) = true := by simpa using hp
      have hmin2 : ∀ x ∈ tl.take n, p x = false := fun x hx =>
        hmin x (by simp [List.take, hx])
      simpa [List.find?, ha] using ih n hlen hp2 hmin2

/-- Removing the characters that are neither in the decoding alphabet
nor the padding character does not change the collected 6-bit values:
the decoder skips exactly those characters. -/
theorem b64Scan_filter (s : Str) :
    b64Scan (s.filter (fun c => isB64Char c || c = '=')) = b64Scan s := by
  induction s with
  | nil => rfl
  | cons c rest ih =>
    by_cases he : c = '='
    · subst he
      simp [List.filter_cons, b64Scan]
    · cases hv : b64Val c with
      | some v =>
        have hb : isB64Char c = true := by simp [isB64Char, hv]
        simp [List.filter_cons, hb, b64Scan, he, hv, ih]
      | none =>
        have hb : isB64Char c = false := by simp [isB64Char, hv]
        simp [List.filter_cons, hb, he, b64Scan, hv, ih]

/-- Invariant of the suggestions sampling loop: starting from a
duplicate-free accumulator of in-range indices no longer than the target
count, any successful run ends with a duplicate-free list of in-range
indices of length exactly the count. -/
theorem sampleLoop_invariant (count n : Nat) (draws : List Nat) :
    ∀ (acc res : List Nat), (∀ d ∈ draws, d < n) → acc.Nodup →
      (∀ i ∈ acc, i < n) → acc.length ≤ count →
      sampleLoop count draws acc = some res →
      res.Nodup ∧ (∀ i ∈ res, i < n) ∧ res.length = count := by
  induction draws with
  | nil =>
    intro acc res _ hnd hb hlen heq
    simp only [sampleLoop] at heq
    split at heq
    · cases heq
      exact ⟨hnd, hb, le_antisymm hlen (by assumption)⟩
    · cases heq
  | cons d rest ih =>
    intro acc res hd hnd hb hlen heq
    simp only [sampleLoop] at heq
    by_cases hc : count ≤ acc.length
    · rw [if_pos hc] at heq
      cases heq
      exact ⟨hnd, hb, le_antisymm hlen hc⟩
    · rw [if_neg hc] at heq
      have hdn : d < n := hd d (List.mem_cons_self d rest)
      have hd2 : ∀ x ∈ rest, x < n := fun x hx => hd x (List.mem_cons_of_mem _ hx)
      by_cases hmem : acc.contains d
      · rw [if_pos hmem] at heq
        exact ih acc res hd2 hnd hb hlen heq
      · rw [if_neg hmem] at heq
        have hdnotin : d ∉ acc := by simpa using hmem
        refine ih (acc ++ [d]) res hd2 ?_ ?_ ?_ heq
        · simp [List.nodup_append, hnd, hdnotin]
        · intro i hi
          rcases List.mem_append.mp hi with hi | hi
          · exact hb i hi
          · simpa using (by simpa using hi : i = d) ▸ hdn
        · have : acc.length < count := lt_of_not_le hc
          simpa using this

/-- C1: for every session token in the registry (tokens contain no space,
as produced by hex encoding), `isAuthenticated` on a `Bearer` header
succeeds iff the time elapsed since the stored timestamp is at most
24 hours; on success the stored timestamp is refreshed to `now`, and on
expiry the call returns false and deletes the session entry. -/
theorem isAuthenticated_sliding_expiry (sessions : List (Str × Int))
    (token : Str) (ts now : Int) (hsp : ' ' ∉ token)
    (hlook : alookup sessions token = some ts) :
    ((isAuthenticated sessions (some ("Bearer ".data ++ token)) now).1 = true
        ↔ now - ts ≤ dayMs)
    ∧ (now - ts ≤ dayMs →
        (isAuthenticated sessions (some ("Bearer ".data ++ token)) now).2
          = aset sessions token now
        ∧ alookup (isAuthenticated sessions (some ("Bearer ".data ++ token)) now).2
            token = some now)
    ∧ (dayMs < now - ts →
        (isAuthenticated sessions (some ("Bearer ".data ++ token)) now).1 = false
        ∧ alookup (isAuthenticated sessions (some ("Bearer ".data ++ token)) now).2
            token = none) := by
  have h0 : splitList ' ' ('B' :: 'e' :: 'a' :: 'r' :: 'e' :: 'r' :: ' ' :: token)
      = "Bearer".data :: splitList ' ' token := rfl
  have hsplit : splitList ' ' ('B' :: 'e' :: 'a' :: 'r' :: 'e' :: 'r' :: ' ' :: token)
      = ["Bearer".data, token] := by
    rw [h0, splitList_no_sep hsp]
  by_cases hexp : now - ts > dayMs
  · have hne : ¬ now - ts ≤ dayMs := not_le.mpr hexp
    simp [isAuthenticated, hsplit, hlook, if_pos hexp, hne, alookup_aremove]
  · have hle : now - ts ≤ dayMs := not_lt.mp hexp
    simp [isAuthenticated, hsplit, hlook, if_neg hexp, hle, alookup_aset]

/-- C1 witness: a concrete session at the 24-hour boundary authenticates
and is refreshed. -/
theorem isAuthenticated_sliding_expiry_witness :
    ((isAuthenticated [("ab".data, 0)]
        (some ("Bearer ".data ++ "ab".data)) 86400000).1 = true
      ↔ (86400000 : Int) - 0 ≤ dayMs)
    ∧ ((86400000 : Int) - 0 ≤ dayMs →
        (isAuthenticated [("ab".data, 0)]
          (some ("Bearer ".data ++ "ab".data)) 86400000).2
            = aset [("ab".data, 0)] "ab".data 86400000
        ∧ alookup (isAuthenticated [("ab".data, 0)]
            (some ("Bearer ".data ++ "ab".data)) 86400000).2 "ab".data
              = some 86400000)
    ∧ (dayMs < (86400000 : Int) - 0 →
        (isAuthenticated [("ab".data, 0)]
          (some ("Bearer ".data ++ "ab".data)) 86400000).1 = false
        ∧ alookup (isAuthenticated [("ab".data, 0)]
            (some ("Bearer ".data ++ "ab".data)) 86400000).2 "ab".data
              = none) :=
  isAuthenticated_sliding_expiry [("ab".data, 0)] "ab".data 0 86400000
    (by decide) (by decide)

/-- C2: the `serveStatic` traversal guard is a string-prefix check on the
resolved path. With server directory `/srv/app` (static root
`/srv/app/public`) the traversal pathname `/../publicx/secret.txt`
resolves to `/srv/app/publicx/secret.txt`, which lies outside the static
root, yet the guard accepts it — while a classic `/../../../etc/passwd`
traversal is indeed refused. -/
theorem serveStatic_guard_escape :
    serveStaticGuard ["srv".data, "app".data, "public".data]
      "/../publicx/secret.txt".data = true
    ∧ List.isPrefixOf ["srv".data, "app".data, "public".data]
        (resolveJoin ["srv".data, "app".data, "public".data]
          "/../publicx/secret.txt".data) = false
    ∧ renderAbs (resolveJoin ["srv".data, "app".data, "public".data]
        "/../publicx/secret.txt".data) = "/srv/app/publicx/secret.txt".data
    ∧ serveStaticGuard ["srv".data, "app".data, "public".data]
        "/../../../etc/passwd".data = false := by decide

/-- C5 counterexample: `getLocale` does not fall back to English on a
parse failure. With `fr.json` present but malformed and `en.json` valid,
`getLocale('fr')` yields the empty mapping, not the English mapping the
claim's fallback-on-failure rule requires. -/
theorem getLocale_parse_failure_no_fallback :
    (getLocale [] fsNoFallback "fr".data).1 = []
    ∧ (getLocale [] fsNoFallback "en".data).1
        = [("chat_no_answer".data, "EN".data)]
    ∧ ¬ (getLocale [] fsNoFallback "fr".data).1
        = (getLocale [] fsNoFallback "en".data).1 := by decide

/-- C5 amended: `getLocale` returns the cached mapping when present;
otherwise it reads the language's document — on success it caches and
returns the parsed mapping; on a read failure it recurses once into
`getLocale('en')` when the language is not `'en'` and returns the empty
mapping otherwise; on a parse failure it returns the empty mapping
directly, with no fallback and no caching. -/
theorem getLocale_amended (cache : Cache) (fsRead : Str → LocaleRead)
    (lang : Str) :
    (∀ m, alookup cache lang = some m →
      getLocale cache fsRead lang = (m, cache))
    ∧ (∀ m, alookup cache lang = none → fsRead lang = .ok m →
        (getLocale cache fsRead lang).1 = m
        ∧ alookup (getLocale cache fsRead lang).2 lang = some m)
    ∧ (alookup cache lang = none → fsRead lang = .parseErr →
        getLocale cache fsRead lang = ([], cache))
    ∧ (alookup cache lang = none → fsRead lang = .readErr →
        lang ≠ "en".data →
        getLocale cache fsRead lang = getLocale cache fsRead "en".data)
    ∧ (alookup cache lang = none → fsRead lang = .readErr →
        lang = "en".data →
        getLocale cache fsRead lang = ([], cache)) := by
  refine ⟨?_, ?_, ?_, ?_, ?_⟩
  · intro m hm
    simp [getLocale, getLocaleBase, hm]
  · intro m hm hfs
    simp [getLocale, getLocaleBase, hm, hfs, alookup_aset]
  · intro hm hfs
    simp [getLocale, getLocaleBase, hm, hfs]
  · intro hm hfs hne
    simp [getLocale, getLocaleBase, hm, hfs, hne]
  · intro hm hfs he
    subst he
    simp [getLocale, getLocaleBase, hm, hfs]

/-- C5 amended witness: on the concrete file system, the malformed
`fr.json` yields the empty mapping with an unchanged cache, and the
missing `de.json` falls back to `getLocale('en')`. -/
theorem getLocale_amended_witness :
    getLocale [] fsNoFallback "fr".data = ([], [])
    ∧ getLocale [] fsNoFallback "de".data
        = getLocale [] fsNoFallback "en".data :=
  ⟨(getLocale_amended [] fsNoFallback "fr".data).2.2.1 (by decide) (by decide),
   (getLocale_amended [] fsNoFallback "de".data).2.2.2.1 (by decide)
     (by decide) (by decide)⟩

/-- C3: every authenticated add-FAQ request with non-empty trimmed
question and answer appends the trimmed entry at the end of the
in-memory list (so a subsequent `GET /api/faqs`, which serves exactly
that list, includes it in insertion order), and a successful disk write
leaves `faqs.json` holding exactly the new in-memory sequence. -/
theorem addFaq_append_roundtrip (faqs : List FAQ) (disk : Option (List FAQ))
    (sessions : List (Str × Int)) (auth : Option Str) (now : Int)
    (q a : Str)
    (hauth : (isAuthenticated sessions auth now).1 = true)
    (hq : (trimStr q).isEmpty = false) (ha : (trimStr a).isEmpty = false) :
    addFaqHandler faqs disk sessions auth now (some q) (some a) true
      = ⟨200, true, faqs ++ [⟨trimStr q, trimStr a⟩],
         some (faqs ++ [⟨trimStr q, trimStr a⟩]),
         (isAuthenticated sessions auth now).2⟩ := by
  simp [addFaqHandler, hauth, hq, ha]

/-- C3 witness: a concrete authenticated append; the entry is trimmed,
appended, and mirrored to disk. -/
theorem addFaq_append_roundtrip_witness :
    addFaqHandler [⟨"old".data, "o".data⟩] (some [⟨"old".data, "o".data⟩])
      [("t".data, 0)] (some "Bearer t".data) 5
      (some " q ".data) (some "a".data) true
    = ⟨200, true,
       [⟨"old".data, "o".data⟩] ++ [⟨trimStr " q ".data, trimStr "a".data⟩],
       some ([⟨"old".data, "o".data⟩]
         ++ [⟨trimStr " q ".data, trimStr "a".data⟩]),
       (isAuthenticated [("t".data, 0)] (some "Bearer t".data) 5).2⟩ :=
  addFaq_append_roundtrip [⟨"old".data, "o".data⟩]
    (some [⟨"old".data, "o".data⟩]) [("t".data, 0)] (some "Bearer t".data) 5
    " q ".data "a".data (by decide) (by decide) (by decide)

/-- C4: when the disk write fails, the in-memory append is kept (no
rollback) and the handler still answers 200 `{success:true}`; the
on-disk document stays at its previous content, diverging from memory. -/
theorem addFaq_write_failure_no_rollback (faqs : List FAQ)
    (disk : Option (List FAQ)) (sessions : List (Str × Int))
    (auth : Option Str) (now : Int) (q a : Str)
    (hauth : (isAuthenticated sessions auth now).1 = true)
    (hq : (trimStr q).isEmpty = false) (ha : (trimStr a).isEmpty = false) :
    addFaqHandler faqs disk sessions auth now (some q) (some a) false
      = ⟨200, true, faqs ++ [⟨trimStr q, trimStr a⟩], disk,
         (isAuthenticated sessions auth now).2⟩ := by
  simp [addFaqHandler, hauth, hq, ha]

/-- C4 witness: a concrete failed write; memory gains the entry, disk
keeps its old content, and the client still sees 200 success. -/
theorem addFaq_write_failure_no_rollback_witness :
    addFaqHandler [] (some []) [("u".data, 2)] (some "Bearer u".data) 9
      (some "qq".data) (some " aa ".data) false
    = ⟨200, true, [] ++ [⟨trimStr "qq".data, trimStr " aa ".data⟩], some [],
       (isAuthenticated [("u".data, 2)] (some "Bearer u".data) 9).2⟩ :=
  addFaq_write_failure_no_rollback [] (some []) [("u".data, 2)]
    (some "Bearer u".data) 9 "qq".data " aa ".data
    (by decide) (by decide) (by decide)

/-- C6: for a non-empty question, the chat matcher answers with the first
FAQ (in insertion order) whose question equals the input
case-insensitively; only when no FAQ matches exactly does it answer with
the first FAQ matching as a substring in either direction; and when
neither predicate matches any FAQ, no FAQ answer is produced. -/
theorem chat_match_priority (faqs : List FAQ) (q : Str) (hq : q ≠ []) :
    (∀ i (h : i < faqs.length),
        exactPred (toLowerStr q) (faqs.get ⟨i, h⟩) = true →
        (∀ f ∈ faqs.take i, exactPred (toLowerStr q) f = false) →
        matchedAnswer faqs q = some (faqs.get ⟨i, h⟩).answer)
    ∧ ((∀ f ∈ faqs, exactPred (toLowerStr q) f = false) →
        ∀ i (h : i < faqs.length),
          substrPred (toLowerStr q) (faqs.get ⟨i, h⟩) = true →
          (∀ f ∈ faqs.take i, substrPred (toLowerStr q) f = false) →
          matchedAnswer faqs q = some (faqs.get ⟨i, h⟩).answer)
    ∧ ((∀ f ∈ faqs, exactPred (toLowerStr q) f = false
          ∧ substrPred (toLowerStr q) f = false) →
        matchedAnswer faqs q = none) := by
  have hne : q.isEmpty = false := by
    cases q with
    | nil => exact absurd rfl hq
    | cons c rest => rfl
  have hma : matchedAnswer faqs q = findAnswerList faqs q := by
    simp [matchedAnswer, hne]
  refine ⟨?_, ?_, ?_⟩
  · intro i h hp hmin
    rw [hma]
    simp only [findAnswerList]
    rw [find?_take_first (exactPred (toLowerStr q)) faqs i h hp hmin]
  · intro hnone i h hp hmin
    have hex : faqs.find? (exactPred (toLowerStr q)) = none :=
      List.find?_eq_none.mpr (fun x hx => by simp [hnone x hx])
    rw [hma]
    simp only [findAnswerList]
    rw [hex, find?_take_first (substrPred (toLowerStr q)) faqs i h hp hmin]
  · intro hnone
    have hex : faqs.find? (exactPred (toLowerStr q)) = none :=
      List.find?_eq_none.mpr (fun x hx => by simp [(hnone x hx).1])
    have hsub : faqs.find? (substrPred (toLowerStr q)) = none :=
      List.find?_eq_none.mpr (fun x hx => by simp [(hnone x hx).2])
    rw [hma]
    simp only [findAnswerList]
    rw [hex, hsub]

/-- C6 witness: the spec's example — `"HELLO WORLD"` hits the second FAQ
`{hello world, A2}` by exact case-insensitive match. -/
theorem chat_match_priority_witness :
    matchedAnswer faqsW6 "HELLO WORLD".data = some "A2".data :=
  (chat_match_priority faqsW6 "HELLO WORLD".data (by decide)).1 1
    (by decide) (by decide) (by decide)

/-- C7: when the question matches no FAQ, the language resolves to `en`,
and the resolved English locale mapping has no `chat_no_answer` key, the
chat endpoint answers 200 with the fixed default string
`Sorry, I don't know the answer.`. -/
theorem chat_default_answer (faqs : List FAQ) (cache : Cache)
    (fsRead : Str → LocaleRead) (bq blang : Option Str)
    (hmatch : matchedAnswer faqs (trimStr (jsOr bq [])) = none)
    (hlang : trimStr (jsOr blang "en".data) = "en".data)
    (hkey : alookup (getLocale cache fsRead "en".data).1
      "chat_no_answer".data = none) :
    (chatHandler faqs cache fsRead bq blang).1 = 200
    ∧ (chatHandler faqs cache fsRead bq blang).2.1 = defaultNoAnswer := by
  simp [chatHandler, hmatch, hlang, hkey]

/-- C7 witness: an empty FAQ list, empty cache and a file system with no
locale documents produce the default reply. -/
theorem chat_default_answer_witness :
    (chatHandler [] [] (fun _ => .readErr) none none).1 = 200
    ∧ (chatHandler [] [] (fun _ => .readErr) none none).2.1
        = defaultNoAnswer :=
  chat_default_answer [] [] (fun _ => .readErr) none none
    (by decide) (by decide) (by decide)

/-- C8: `saveImage` returns null for any input the data-URI pattern does
not match; in particular every `image/gif` data URI is rejected and makes
the upload request answer 400, while matching `image/png` inputs yield a
path ending in `.png` and matching `image/jpeg` inputs a path ending in
`.jpg` (extension normalised from `jpeg`). -/
theorem saveImage_mime_filter :
    (∀ s pfx ts rnd, parseDataUri s = none → saveImage s pfx ts rnd = none)
    ∧ (∀ payload pfx ts rnd,
        saveImage ("data:image/gif;base64,".data ++ payload) pfx ts rnd = none)
    ∧ (∀ payload after tsB rB tsA rA,
        uploadImageStatus (some ("data:image/gif;base64,".data ++ payload))
          after tsB rB tsA rA = 400)
    ∧ (∀ payload pfx ts rnd, dotPlusOk payload = true →
        ∃ stem, saveImage ("data:image/png;base64,".data ++ payload) pfx ts rnd
          = some (stem ++ ".png".data, base64DecodeLenient payload))
    ∧ (∀ payload pfx ts rnd, dotPlusOk payload = true →
        ∃ stem, saveImage ("data:image/jpeg;base64,".data ++ payload) pfx ts rnd
          = some (stem ++ ".jpg".data, base64DecodeLenient payload)) := by
  have hgif : ∀ payload : Str,
      parseDataUri ("data:image/gif;base64,".data ++ payload) = none :=
    fun _ => rfl
  refine ⟨?_, ?_, ?_, ?_, ?_⟩
  · intro s pfx ts rnd h
    simp only [saveImage, h]
  · intro payload pfx ts rnd
    simp only [saveImage, hgif payload]
  · intro payload after tsB rB tsA rA
    cases hta : truthy after with
    | false => simp [uploadImageStatus, hta]
    | true =>
      have ht : truthy (some ("data:image/gif;base64,".data ++ payload))
          = true := rfl
      have hj : jsOr (some ("data:image/gif;base64,".data ++ payload)) []
          = "data:image/gif;base64,".data ++ payload := rfl
      simp only [uploadImageStatus, hta, ht, hj, saveImage, hgif payload]
      simp
  · intro payload pfx ts rnd h
    have h1 : startsWithStr ("data:image/png;base64,".data ++ payload)
        "data:image/png;base64,".data = true :=
      List.isPrefixOf_iff_prefix.mpr (List.prefix_append _ _)
    have h2 : List.drop 22 ("data:image/png;base64,".data ++ payload)
        = payload := rfl
    refine ⟨"assets/img/".data ++ pfx ++ "-".data ++ ts ++ "-".data ++ rnd, ?_⟩
    simp only [saveImage, parseDataUri, h1, h2, h, eq_self_iff_true, if_true]
    simp [List.append_assoc]
  · intro payload pfx ts rnd h
    have h0 : startsWithStr ("data:image/jpeg;base64,".data ++ payload)
        "data:image/png;base64,".data = false := rfl
    have h1 : startsWithStr ("data:image/jpeg;base64,".data ++ payload)
        "data:image/jpeg;base64,".data = true :=
      List.isPrefixOf_iff_prefix.mpr (List.prefix_append _ _)
    have h2 : List.drop 23 ("data:image/jpeg;base64,".data ++ payload)
        = payload := rfl
    refine ⟨"assets/img/".data ++ pfx ++ "-".data ++ ts ++ "-".data ++ rnd, ?_⟩
    simp only [saveImage, parseDataUri, h0, h1, h2, h, eq_self_iff_true,
      if_true, Bool.false_eq_true, if_false]
    simp [List.append_assoc]

/-- C8 witness: concrete inputs — a malformed URI and a GIF URI are
rejected (the latter also as a 400 upload), PNG and JPEG URIs yield
paths with the normalised extensions. -/
theorem saveImage_mime_filter_witness :
    saveImage "xyz".data "b".data "7".data "aa".data = none
    ∧ saveImage ("data:image/gif;base64,".data ++ "QUJD".data) "before".data
        "7".data "aa".data = none
    ∧ uploadImageStatus (some ("data:image/gif;base64,".data ++ "QUJD".data))
        (some "x".data) "7".data "aa".data "8".data "bb".data = 400
    ∧ (∃ stem, saveImage ("data:image/png;base64,".data ++ "QUJD".data)
        "before".data "7".data "aa".data
          = some (stem ++ ".png".data, base64DecodeLenient "QUJD".data))
    ∧ (∃ stem, saveImage ("data:image/jpeg;base64,".data ++ "QUJD".data)
        "b".data "7".data "aa".data
          = some (stem ++ ".jpg".data, base64DecodeLenient "QUJD".data)) :=
  ⟨saveImage_mime_filter.1 "xyz".data "b".data "7".data "aa".data (by decide),
   saveImage_mime_filter.2.1 "QUJD".data "before".data "7".data "aa".data,
   saveImage_mime_filter.2.2.1 "QUJD".data (some "x".data) "7".data "aa".data
     "8".data "bb".data,
   saveImage_mime_filter.2.2.2.1 "QUJD".data "before".data "7".data "aa".data
     (by decide),
   saveImage_mime_filter.2.2.2.2 "QUJD".data "b".data "7".data "aa".data
     (by decide)⟩

/-- C9: whenever the suggestions sampling loop finishes, the response
holds exactly `min 5 n` questions, drawn at pairwise-distinct in-range
indices of the FAQ list, each question belonging to the stored list. -/
theorem faqsSuggestions_distinct (faqs : List FAQ) (draws : List Nat)
    (qs : List Str) (hd : ∀ d ∈ draws, d < faqs.length)
    (h : faqsSuggestions faqs draws = some qs) :
    qs.length = min 5 faqs.length
    ∧ (∀ s ∈ qs, s ∈ faqs.map FAQ.question)
    ∧ ∃ idxs : List Nat, idxs.Nodup ∧ (∀ i ∈ idxs, i < faqs.length)
        ∧ idxs.length = min 5 faqs.length
        ∧ qs = idxs.map (fun i => ((faqs.get? i).map FAQ.question).getD []) := by
  simp only [faqsSuggestions, Option.map_eq_some'] at h
  obtain ⟨idxs, hs, hqs⟩ := h
  obtain ⟨hnd, hb, hlen⟩ :=
    sampleLoop_invariant (min 5 faqs.length) faqs.length draws [] idxs hd
      (by simp) (by simp) (by simp) hs
  subst hqs
  refine ⟨by simp [hlen], ?_, idxs, hnd, hb, hlen, rfl⟩
  intro s hsmem
  obtain ⟨i, hi, rfl⟩ := List.mem_map.mp hsmem
  have hilt := hb i hi
  rw [List.get?_eq_get hilt]
  exact List.mem_map.mpr ⟨faqs.get ⟨i, hilt⟩, List.get_mem _ _ _, rfl⟩

/-- C9 witness: a three-entry FAQ list and the draw stream `[2,2,0,1]`
produce exactly three distinct questions from the list. -/
theorem faqsSuggestions_distinct_witness :
    (["c".data, "a".data, "b".data] : List Str).length = min 5 faqsW9.length
    ∧ (∀ s ∈ (["c".data, "a".data, "b".data] : List Str),
        s ∈ faqsW9.map FAQ.question)
    ∧ ∃ idxs : List Nat, idxs.Nodup ∧ (∀ i ∈ idxs, i < faqsW9.length)
        ∧ idxs.length = min 5 faqsW9.length
        ∧ (["c".data, "a".data, "b".data] : List Str)
            = idxs.map (fun i => ((faqsW9.get? i).map FAQ.question).getD []) :=
  faqsSuggestions_distinct faqsW9 [2, 2, 0, 1]
    ["c".data, "a".data, "b".data] (by decide) (by decide)

/-- C10: the base64 payload is never validated: every input matching the
header pattern with a non-empty payload produces a storage path, and the
written bytes are Node's lenient decoding of the payload — identical to
the decoding with every invalid character (outside the
URL-safe-extended alphabet and not the padding `=`) removed first, i.e.
invalid characters are silently ignored rather than rejected. -/
theorem saveImage_lenient_decode (payload pfx ts rnd : Str)
    (h : dotPlusOk payload = true) :
    saveImage ("data:image/png;base64,".data ++ payload) pfx ts rnd
      = some ("assets/img/".data ++ pfx ++ "-".data ++ ts ++ "-".data ++ rnd
          ++ ".png".data, base64DecodeLenient payload)
    ∧ base64DecodeLenient payload
        = base64DecodeLenient
            (payload.filter (fun c => isB64Char c || c = '=')) := by
  constructor
  · have h1 : startsWithStr ("data:image/png;base64,".data ++ payload)
        "data:image/png;base64,".data = true :=
      List.isPrefixOf_iff_prefix.mpr (List.prefix_append _ _)
    have h2 : List.drop 22 ("data:image/png;base64,".data ++ payload)
        = payload := rfl
    simp only [saveImage, parseDataUri, h1, h2, h, eq_self_iff_true, if_true]
    simp [List.append_assoc]
  · rw [base64DecodeLenient, base64DecodeLenient, b64Scan_filter]

/-- C10 witness: the payload `Q!Q=` contains a character (`!`) outside
the base64 alphabet yet is accepted and decoded as if it were absent. -/
theorem saveImage_lenient_decode_witness :
    saveImage ("data:image/png;base64,".data ++ "Q!Q=".data) "b".data
        "1".data "aa".data
      = some ("assets/img/".data ++ "b".data ++ "-".data ++ "1".data
          ++ "-".data ++ "aa".data ++ ".png".data,
          base64DecodeLenient "Q!Q=".data)
    ∧ base64DecodeLenient "Q!Q=".data
        = base64DecodeLenient
            ("Q!Q=".data.filter (fun c => isB64Char c || c = '=')) :=
  saveImage_lenient_decode "Q!Q=".data "b".data "1".data "aa".data (by decide)

end Marisk
